import Mathlib

/-!
Shallow embedding of the r-nacos openapi config HTTP layer
(`src/openapi/config/api.rs`) together with the store / listener-registry
behaviour it relies on.  Components of the repository that the handlers call
but whose code is not part of the visible slice (the config actor, the
listener codec, parameter validation utilities, the `ConfigType` media-type
map) are modelled from the specification; every such definition is marked
`Modelled from the spec:` in its doc comment.  Everything else is translated
directly from `api.rs`.
-/

/-- A simplified HTTP response: status code, optional content-type, extra
headers and the body, enough to express what the handlers in `api.rs`
produce. -/
structure Response where
  status : Nat
  contentType : Option String
  headers : List (String × String)
  body : String
  deriving Repr, DecidableEq

/-- `HttpResponse::InternalServerError().body(b)` (status 500). -/
def internalServerError (b : String) : Response :=
  ⟨500, none, [], b⟩

/-- `HttpResponse::Ok().content_type("text/html; charset=utf-8").body(b)`. -/
def okHtml (b : String) : Response :=
  ⟨200, some "text/html; charset=utf-8", [], b⟩

/-- `HttpResponse::NoContent().content_type("text/html; charset=utf-8").body(b)`
(status 204). -/
def noContentHtml (b : String) : Response :=
  ⟨204, some "text/html; charset=utf-8", [], b⟩

/-- `HttpResponse::NotFound().body(b)` (status 404). -/
def notFoundResponse (b : String) : Response :=
  ⟨404, none, [], b⟩

/-- A status in the 4xx class ("client error"). -/
def isClientError (status : Nat) : Prop :=
  400 ≤ status ∧ status < 500

instance (status : Nat) : Decidable (isClientError status) := by
  unfold isClientError; infer_instance

/-- Modelled from the spec: `crate::utils::select_option_by_clone`, the merge
of a query field with a form-body field — "query and form-body fields merged,
query wins on conflict" (§6). -/
def select_option_by_clone (a b : Option String) : Option String :=
  match a with
  | some v => some v
  | none => b

/-- `ConfigWebParams` from `api.rs`: the decoded query / form parameters of
the `/configs` endpoints. -/
structure ConfigWebParams where
  data_id : Option String
  group : Option String
  tenant : Option String
  content : Option String
  deriving Repr, DecidableEq

/-- `ConfigWebParams::select_option` from `api.rs`. -/
def ConfigWebParams.select_option (p o : ConfigWebParams) : ConfigWebParams :=
  ⟨select_option_by_clone p.data_id o.data_id,
   select_option_by_clone p.group o.group,
   select_option_by_clone p.tenant o.tenant,
   select_option_by_clone p.content o.content⟩

/-- `ConfigWebConfirmedParam` from `api.rs` (all fields default to `""`). -/
structure ConfigWebConfirmedParam where
  data_id : String
  group : String
  tenant : String
  content : String
  deriving Repr, DecidableEq

/-- The part of `ConfigWebParams::to_confirmed_param` that fills the group,
tenant and content fields (the code after the `data_id` check in `api.rs`
lines 60–74): group defaults to `"DEFAULT_GROUP"`, tenant defaults to `""`
and `"public"` is normalized to `""`, content is kept only when non-empty. -/
def ConfigWebParams.confirmRest (p : ConfigWebParams) (data_id : String) :
    ConfigWebConfirmedParam :=
  let group := p.group.getD "DEFAULT_GROUP"
  let tenant0 := p.tenant.getD ""
  let tenant := if tenant0 = "public" then "" else tenant0
  let content :=
    match p.content with
    | some v => if v.isEmpty then "" else v
    | none => ""
  ⟨data_id, group, tenant, content⟩

/-- `ConfigWebParams::to_confirmed_param` from `api.rs`: errors only when
`data_id` is present and empty; an absent `data_id` silently confirms to
`""`. -/
def ConfigWebParams.to_confirmed_param (p : ConfigWebParams) :
    Except String ConfigWebConfirmedParam :=
  match p.data_id with
  | some v =>
      if v.isEmpty then .error "dataId is empty"
      else .ok (p.confirmRest v)
  | none => .ok (p.confirmRest "")

/-- `ConfigKey` (`crate::config::core`): the `(data_id, group, tenant)`
identity triple; `ConfigKey::new` clones the three strings. -/
structure ConfigKey where
  data_id : String
  group : String
  tenant : String
  deriving Repr, DecidableEq

/-- Modelled from the spec: the character class accepted by the parameter
validation utilities (`crate::config::utils::param_utils`, absent from the
visible slice) for identifying fields — letters, digits and `_ - . :`. -/
def validParamChar (c : Char) : Bool :=
  c.isAlphanum || c = '_' || c = '-' || c = '.' || c = ':'

/-- Modelled from the spec: `param_utils::check_tenant` — "invalid tenant
syntax" is a ValidationError (§7); an absent or empty tenant is the default
namespace and is accepted. -/
def check_tenant (tenant : Option String) : Except String Unit :=
  match tenant with
  | none => .ok ()
  | some t =>
      if t.data.all validParamChar then .ok ()
      else .error "invalid tenant"

/-- Modelled from the spec: `param_utils::check_param` over
`(data_id, group, datum_id, content)` — "malformed or missing required
identifying fields (empty dataId, …)" is a ValidationError (§7): each field
must be present, non-empty, and the identifying ones syntactically valid. -/
def check_param (data_id group datum_id content : Option String) :
    Except String Unit :=
  match data_id with
  | none => .error "required parameter dataId is missing"
  | some d =>
      if d.isEmpty then .error "required parameter dataId is missing"
      else if !d.data.all validParamChar then .error "invalid dataId"
      else
        match group with
        | none => .error "required parameter group is missing"
        | some g =>
            if g.isEmpty then .error "required parameter group is missing"
            else if !g.data.all validParamChar then .error "invalid group"
            else
              match datum_id, content with
              | some _, some c =>
                  if c.isEmpty then .error "required parameter content is missing"
                  else .ok ()
              | _, _ => .error "required parameter content is missing"

/-- `SetConfigReq::new(key, content)` (`crate::raft::cluster::model`): the
publish intent handed to the cluster write route. -/
structure SetConfigReq where
  key : ConfigKey
  content : String
  deriving Repr, DecidableEq

/-- `DelConfigReq::new(key)`: the delete intent handed to the cluster write
route. -/
structure DelConfigReq where
  key : ConfigKey
  deriving Repr, DecidableEq

/-- `add_config` from `api.rs` (body already decoded into `b`; decode
failures return 500 before this point and touch nothing).  The cluster write
route (`appdata.config_route.set_config`) is abstracted as `route`; the
second component records the request sent to it, `none` when the route was
never invoked. -/
def add_config (a b : ConfigWebParams)
    (route : SetConfigReq → Except String Unit) :
    Response × Option SetConfigReq :=
  let selected_param := a.select_option b
  match check_tenant selected_param.tenant with
  | .error err => (internalServerError err, none)
  | .ok _ =>
    match check_param selected_param.data_id selected_param.group
        (some "datumId") selected_param.content with
    | .error err => (internalServerError err, none)
    | .ok _ =>
      match selected_param.to_confirmed_param with
      | .ok p =>
          let req : SetConfigReq := ⟨⟨p.data_id, p.group, p.tenant⟩, p.content⟩
          match route req with
          | .ok _ => (okHtml "true", some req)
          | .error err => (internalServerError err, some req)
      | .error e => (internalServerError e, none)

/-- `del_config` from `api.rs` (body already decoded into `b`): same
validation as `add_config` but with the fixed `"rm"` content marker, then the
delete intent is handed to the cluster route. -/
def del_config (a b : ConfigWebParams)
    (route : DelConfigReq → Except String Unit) :
    Response × Option DelConfigReq :=
  let selected_param := a.select_option b
  match check_tenant selected_param.tenant with
  | .error err => (internalServerError err, none)
  | .ok _ =>
    match check_param selected_param.data_id selected_param.group
        (some "datumId") (some "rm") with
    | .error err => (internalServerError err, none)
    | .ok _ =>
      match selected_param.to_confirmed_param with
      | .ok p =>
          let req : DelConfigReq := ⟨⟨p.data_id, p.group, p.tenant⟩⟩
          match route req with
          | .ok _ => (okHtml "true", some req)
          | .error err => (internalServerError err, some req)
      | .error e => (internalServerError e, none)

/-- Modelled from the spec: `ConfigType` (`crate::config::config_type`,
absent from the visible slice) — "a closed tagged variant (enum) over the
known formats with an exhaustive mapping function to media type string,
defaulting to a plain-text type for unknown/absent tags" (§9); known formats
per §3: text / json / yaml / properties. -/
inductive ConfigType where
  | text
  | json
  | yaml
  | properties
  deriving Repr, DecidableEq

/-- Modelled from the spec: `ConfigType::new_by_value` — map a format tag to
the closed variant, unknown tags to the plain-text default. -/
def ConfigType.new_by_value (v : String) : ConfigType :=
  if v = "json" then .json
  else if v = "yaml" then .yaml
  else if v = "properties" then .properties
  else .text

/-- Modelled from the spec: the `Default` instance of `ConfigType` is the
plain-text variant. -/
instance : Inhabited ConfigType := ⟨.text⟩

/-- Modelled from the spec: `ConfigType::get_media_type` — exhaustive map
from format tag to response media type. -/
def ConfigType.get_media_type : ConfigType → String
  | .text => "text/plain"
  | .json => "application/json"
  | .yaml => "application/x-yaml"
  | .properties => "text/plain"

/-- `ConfigResult` (`crate::config::core`) as consumed by `get_config`: the
actor's answer to `ConfigCmd::GET` — a live entry's value, fingerprint and
format hint, or nothing. -/
inductive ConfigResult where
  | data (value : String) (md5 : String) (config_type : Option String)
  | null
  deriving Repr, DecidableEq

/-- A `ConfigEntry` as held by the store (§3): content, fingerprint, format
hint. -/
structure ConfigEntry where
  content : String
  md5 : String
  config_type : Option String
  deriving Repr, DecidableEq

/-- Modelled from the spec: the config actor's handling of `ConfigCmd::GET` —
`get(key) -> Option<ConfigEntry>` with no side effects (§4.1), rendered as
the `ConfigResult` the handler receives. -/
def actorGet (store : ConfigKey → Option ConfigEntry) (key : ConfigKey) :
    ConfigResult :=
  match store key with
  | some e => .data e.content e.md5 e.config_type
  | none => .null

/-- `get_config` from `api.rs`: confirm the parameters (no `check_param` /
`check_tenant` here), send `ConfigCmd::GET`, and render the result — 200 with
the raw content, a `content-md5` header and a media type derived from
`config_type` when an entry exists, 404 otherwise.  The second component
records the key queried, `none` when no `GET` command was sent. -/
def get_config (a : ConfigWebParams) (store : ConfigKey → Option ConfigEntry) :
    Response × Option ConfigKey :=
  match a.to_confirmed_param with
  | .ok p =>
      let key : ConfigKey := ⟨p.data_id, p.group, p.tenant⟩
      match actorGet store key with
      | .data v md5 config_type =>
          (⟨200,
            some (((config_type.map ConfigType.new_by_value).getD
              default).get_media_type),
            [("content-md5", md5)], v⟩, some key)
      | .null => (notFoundResponse "config data not exist", some key)
  | .error e => (internalServerError e, none)

/-- `http::HeaderValue::to_str`: succeeds exactly when every byte of the
header value is visible ASCII (32–126) or horizontal tab (9); otherwise it
returns an error (which `api.rs` line 279 unwraps). -/
def headerValueToStr (bytes : List Nat) : Option String :=
  if bytes.all (fun b => (32 ≤ b && b < 127) || b = 9) then
    some (String.mk (bytes.map Char.ofNat))
  else none

/-- Rust's `str::parse::<i64>()`: optional single `+`/`-` sign, then one or
more ASCII digits, nothing else, and the value must fit in `i64`. -/
def parse_i64 (s : String) : Option Int :=
  let signDigits : Int × List Char :=
    match s.data with
    | '+' :: rest => (1, rest)
    | '-' :: rest => (-1, rest)
    | l => (1, l)
  let sign := signDigits.1
  let digits := signDigits.2
  if digits.isEmpty || !digits.all Char.isDigit then none
  else
    let n : Nat := digits.foldl (fun a c => a * 10 + (c.toNat - 48)) 0
    let v : Int := sign * n
    if -(2 ^ 63) ≤ v ∧ v < 2 ^ 63 then some v else none

/-- The deadline computation of `listener_config` (`api.rs` lines 276–287):
`time_out` starts at 0; when a `Long-Pulling-Timeout` header is present its
value is converted with `to_str().unwrap()` (a panic — modelled as `none` —
when the bytes are not visible ASCII) and parsed as `i64`; on parse success
`time_out = current_time + min(max(10000, v), 120000) - 500`, on parse
failure `time_out = 0`. -/
def compute_time_out (current_time : Int) :
    Option (List Nat) → Option Int
  | none => some 0
  | some bytes =>
      match headerValueToStr bytes with
      | none => none
      | some s =>
          match parse_i64 s with
          | some v => some (current_time + min (max 10000 v) 120000 - 500)
          | none => some 0

/-- `ListenerItem` (`crate::config::core`): a watched key plus the
fingerprint the client last saw. -/
structure ListenerItem where
  key : ConfigKey
  md5 : String
  deriving Repr, DecidableEq

/-- Split a character list at every occurrence of a separator; an empty
input yields one (empty) field, like Rust's `str::split`. -/
def splitCharsOn (sep : Char) : List Char → List Char → List String
  | [], acc => [String.mk acc.reverse]
  | c :: cs, acc =>
      if c = sep then String.mk acc.reverse :: splitCharsOn sep cs []
      else splitCharsOn sep cs (c :: acc)

/-- Split a string at every occurrence of a separator character. -/
def splitOnChar (sep : Char) (s : String) : List String :=
  splitCharsOn sep s.data []

/-- Modelled from the spec: `ListenerItem::decode_listener_items`
(`crate::config::core`, absent from the visible slice) — §4.2: each watched
item is `data_id \x02 group [\x02 tenant] \x02 known_fingerprint`, items
joined by `\x01`; an empty blob decodes to an empty list, a record missing
the tenant field is valid (tenant defaults to empty), and decoding is
defensive (malformed records yield no items, never an error). -/
def decode_listener_items (s : String) : List ListenerItem :=
  (splitOnChar '\x01' s).filterMap fun r =>
    match splitOnChar '\x02' r with
    | [d, g, f] => some ⟨⟨d, g, ""⟩, f⟩
    | [d, g, t, f] => some ⟨⟨d, g, t⟩, f⟩
    | _ => none

/-- `ListenerParams` from `api.rs`: the decoded `Listening-Configs` field. -/
structure ListenerParams where
  configs : Option String
  deriving Repr, DecidableEq

/-- `ListenerParams::select_option` from `api.rs`. -/
def ListenerParams.select_option (p o : ListenerParams) : ListenerParams :=
  ⟨select_option_by_clone p.configs o.configs⟩

/-- `ListenerParams::to_items` from `api.rs`: decode the field, defaulting an
absent field to the empty blob. -/
def ListenerParams.to_items (p : ListenerParams) : List ListenerItem :=
  decode_listener_items (p.configs.getD "")

/-- Modelled from the spec: `ConfigKey::build_key` (`crate::config::core`,
absent from the visible slice) — §4.2: a changed key is rendered as
`data_id \x02 group [\x02 tenant]`, the tenant field omitted when empty. -/
def ConfigKey.build_key (k : ConfigKey) : String :=
  if k.tenant.isEmpty then k.data_id ++ "\x02" ++ k.group
  else k.data_id ++ "\x02" ++ k.group ++ "\x02" ++ k.tenant

/-- The UTF-8 encoding of one scalar value, as a list of byte values. -/
def utf8Bytes (c : Char) : List Nat :=
  let n := c.toNat
  if n < 0x80 then [n]
  else if n < 0x800 then [0xC0 + n / 64, 0x80 + n % 64]
  else if n < 0x10000 then
    [0xE0 + n / 4096, 0x80 + n / 64 % 64, 0x80 + n % 64]
  else
    [0xF0 + n / 262144, 0x80 + n / 4096 % 64, 0x80 + n / 64 % 64,
     0x80 + n % 64]

/-- Uppercase hexadecimal digit for a value below 16. -/
def hexDigit (n : Nat) : Char :=
  if n < 10 then Char.ofNat (48 + n) else Char.ofNat (55 + n)

/-- One byte of `application/x-www-form-urlencoded` output
(`form_urlencoded::byte_serialize`, used by `serde_urlencoded::to_string`):
bytes `a-z A-Z 0-9 * - . _` pass through, space becomes `+`, every other
byte becomes `%HH` with uppercase hex. -/
def formUrlencodeByte (b : Nat) : List Char :=
  if (97 ≤ b && b ≤ 122) || (65 ≤ b && b ≤ 90) || (48 ≤ b && b ≤ 57) ||
      b = 42 || b = 45 || b = 46 || b = 95 then
    [Char.ofNat b]
  else if b = 32 then ['+']
  else ['%', hexDigit (b / 16), hexDigit (b % 16)]

/-- `application/x-www-form-urlencoded` percent-encoding of a string: encode
its UTF-8 bytes one at a time. -/
def formUrlencode (s : String) : String :=
  String.mk ((s.data.flatMap utf8Bytes).flatMap formUrlencodeByte)

/-- `serde_urlencoded::to_string` on an association list: each pair rendered
as `key=value` with both sides percent-encoded, pairs joined by `&`. -/
def serdeUrlencodedToString (pairs : List (String × String)) : String :=
  String.intercalate "&"
    (pairs.map (fun p => formUrlencode p.1 ++ "=" ++ formUrlencode p.2))

/-- The byte slice `t[2..t.len()]` of `api.rs` line 302.  The sliced string
is `serde_urlencoded` output, which is pure ASCII, so dropping two bytes is
dropping two characters. -/
def strDropBytes (s : String) (n : Nat) : String :=
  String.mk (s.data.drop n)

/-- The `ListenerResult::DATA` response body built by `listener_config`
(`api.rs` lines 293–303): concatenate `build_key` plus `\x01` for every
changed key, url-encode the blob through a one-entry map under key `"_"`,
drop the leading `"_="`, and append a newline. -/
def listener_data_body (list : List ConfigKey) : String :=
  let data := list.foldl (fun acc item => acc ++ item.build_key ++ "\x01") ""
  let t := serdeUrlencodedToString [("_", data)]
  strDropBytes t 2 ++ "\n"

/-- `ListenerResult` (`crate::config::core`): what the config actor sends
back through the one-shot channel — the changed keys, or nothing. -/
inductive ListenerResult where
  | DATA (keys : List ConfigKey)
  | NULL
  deriving Repr, DecidableEq

/-- What `listener_config` does after decoding, before any store
interaction: return early (empty watch list, with the designated response),
or register the items with a computed deadline (`ConfigCmd::LISTENER`). -/
inductive ListenerOutcome where
  | earlyReturn (r : Response)
  | listen (items : List ListenerItem) (time_out : Int)
  deriving Repr, DecidableEq

/-- The request-processing phase of `listener_config` (`api.rs` lines
256–290, body already decoded into `b`): merge query and body, decode the
watch list, reject an empty list with 204 `"error:listener empty"`, otherwise
compute the deadline (`none` models the `to_str().unwrap()` panic) and send
`ConfigCmd::LISTENER(list, tx, time_out)`. -/
def listener_config (a b : ListenerParams) (current_time : Int)
    (header : Option (List Nat)) : Option ListenerOutcome :=
  let list := (a.select_option b).to_items
  if list.isEmpty then
    some (.earlyReturn (noContentHtml "error:listener empty"))
  else
    match compute_time_out current_time header with
    | none => none
    | some time_out => some (.listen list time_out)

/-- The response `listener_config` renders from the actor's answer (`api.rs`
lines 292–308). -/
def listener_render (res : ListenerResult) : Response :=
  match res with
  | .DATA list => okHtml (listener_data_body list)
  | .NULL => okHtml ""

/-!
The listener registry.  The registry itself lives in the config actor
(`crate::config::core`), outside the visible slice; the following state
machine is modelled from the spec, §4.1 / §4.5 / §5: the store, registry and
dispatcher behave as one serialized state machine, processing `register`,
`set` (commit + store apply + `on_mutation`) and `on_deadline` one at a
time; each resolution is delivered to the watch's single-use completion
slot, recorded here as an append-only log of `(watch id, result)` pairs.
-/

/-- A pending watch (§3): unique id, requested items, absolute deadline. -/
structure PendingWatch where
  id : Nat
  items : List ListenerItem
  deadline : Int
  deriving Repr, DecidableEq

/-- The serialized state: the store map, the pending-watch table, and the
log of completions delivered to the watches' one-shot slots. -/
structure RegistryState where
  store : List (ConfigKey × ConfigEntry)
  pending : List PendingWatch
  resolved : List (Nat × ListenerResult)
  deriving Repr, DecidableEq

/-- The initial registry state over a given store: no pending watches, no
completions delivered. -/
def RegistryState.init (store : List (ConfigKey × ConfigEntry)) :
    RegistryState :=
  ⟨store, [], []⟩

/-- The live fingerprint of a key: the stored entry's fingerprint, with "key
absent" treated as the distinct fingerprint state `""` (§4.5). -/
def storeMd5 (store : List (ConfigKey × ConfigEntry)) (k : ConfigKey) :
    String :=
  match store.lookup k with
  | some e => e.md5
  | none => ""

/-- `set` on the store map (§4.1): recompute the fingerprint from the
content with the hash function, replacing any previous entry for the key. -/
def storeSet (hash : String → String)
    (store : List (ConfigKey × ConfigEntry)) (k : ConfigKey)
    (content : String) (config_type : Option String) :
    List (ConfigKey × ConfigEntry) :=
  (k, ⟨content, hash content, config_type⟩) ::
    store.filter (fun p => p.1 ≠ k)

/-- The items of a watch whose known fingerprint differs from the live one —
the change check performed at registration (§4.5). -/
def changedKeys (store : List (ConfigKey × ConfigEntry))
    (items : List ListenerItem) : List ConfigKey :=
  (items.filter (fun it => storeMd5 store it.key ≠ it.md5)).map (·.key)

/-- The commands the serialized state machine processes (§5).  `set` covers
commit + store apply + `on_mutation`; `onDeadline now` is the deadline sweep
resolving every pending watch whose deadline has elapsed. -/
inductive RegistryCmd where
  | register (w : PendingWatch)
  | set (k : ConfigKey) (content : String) (config_type : Option String)
  | onDeadline (now : Int)
  deriving Repr, DecidableEq

/-- One step of the serialized state machine (§4.5):
`register` resolves the watch immediately with the already-changed keys when
any item's fingerprint differs, and otherwise stores it as pending;
`set` applies the mutation and resolves every pending watch containing the
key with a changed list holding at least that key (plus any other of its
keys found changed at resolution time);
`onDeadline` resolves every expired pending watch with no-change. -/
def registryStep (hash : String → String) (st : RegistryState) :
    RegistryCmd → RegistryState
  | .register w =>
      let changed := changedKeys st.store w.items
      if changed.isEmpty then
        { st with pending := st.pending ++ [w] }
      else
        { st with resolved := st.resolved ++ [(w.id, .DATA changed)] }
  | .set k content config_type =>
      let store := storeSet hash st.store k content config_type
      let hit := st.pending.filter (fun w => w.items.any (fun it => it.key = k))
      let keep := st.pending.filter (fun w => !w.items.any (fun it => it.key = k))
      { store := store,
        pending := keep,
        resolved := st.resolved ++ hit.map (fun w =>
          (w.id, .DATA ((w.items.filter (fun it =>
            it.key = k || storeMd5 store it.key ≠ it.md5)).map (·.key)))) }
  | .onDeadline now =>
      let due := st.pending.filter (fun w => w.deadline ≤ now)
      let keep := st.pending.filter (fun w => !(w.deadline ≤ now))
      { st with
        pending := keep,
        resolved := st.resolved ++ due.map (fun w => (w.id, .NULL)) }

/-- Run the serialized state machine over a command list in submission
order (§5). -/
def registryRun (hash : String → String) (st : RegistryState)
    (cmds : List RegistryCmd) : RegistryState :=
  cmds.foldl (registryStep hash) st

/-- The ids of the watches a command list registers. -/
def registerIds : List RegistryCmd → List Nat
  | [] => []
  | .register w :: cs => w.id :: registerIds cs
  | _ :: cs => registerIds cs

/-- All watch ids a state knows about: pending first, then resolved. -/
def RegistryState.ids (st : RegistryState) : List Nat :=
  st.pending.map (·.id) ++ st.resolved.map (·.1)

/-- The changed-key blob exactly as claim C3 words it: each key rendered by
`build_key` and suffixed by the record separator `\x01` (so the last item
carries a trailing `\x01`), all concatenated — raw separator bytes, no
percent-encoding.  Stated from the claim, for comparison with
`listener_data_body`. -/
def claimedBlob : List ConfigKey → String
  | [] => ""
  | k :: ks => k.build_key ++ "\x01" ++ claimedBlob ks

/-- The response body exactly as claim C3 words it: the raw blob terminated
by a newline. -/
def claimedListenerBody (list : List ConfigKey) : String :=
  claimedBlob list ++ "\n"

/-- A completion delivered to a watch slot in the shape §3 requires: a
non-empty changed-key list, or the no-change marker. -/
def resolutionWF (r : Nat × ListenerResult) : Prop :=
  (∃ keys, r.2 = ListenerResult.DATA keys ∧ keys ≠ []) ∨ r.2 = ListenerResult.NULL

/-- The watch ids one command registers. -/
def cmdRegisterIds : RegistryCmd → List Nat
  | .register w => [w.id]
  | .set _ _ _ => []
  | .onDeadline _ => []

/-!
Theorems.
-/

/-- Evaluation of `get_config` once the parameters confirm: the handler
sends `ConfigCmd::GET` for the confirmed key and renders the actor's
answer. -/
theorem get_config_eq (a : ConfigWebParams) (p : ConfigWebConfirmedParam)
    (store : ConfigKey → Option ConfigEntry)
    (hp : a.to_confirmed_param = .ok p) :
    get_config a store =
      match store ⟨p.data_id, p.group, p.tenant⟩ with
      | some e =>
          (⟨200,
            some (((e.config_type.map ConfigType.new_by_value).getD
              default).get_media_type),
            [("content-md5", e.md5)], e.content⟩,
           some ⟨p.data_id, p.group, p.tenant⟩)
      | none =>
          (notFoundResponse "config data not exist",
           some ⟨p.data_id, p.group, p.tenant⟩) := by
  unfold get_config actorGet
  rw [hp]
  cases hst : store ⟨p.data_id, p.group, p.tenant⟩ with
  | some e => simp only [hst]
  | none => simp only [hst]

/-- C1: for every `POST /configs/listener` request carrying a
`Long-Pulling-Timeout` header that parses as an integer `t`, the computed
absolute deadline equals `now + min(max(10000, t), 120000) - 500` (wait
floored at 10000 ms, capped at 120000 ms); an absent or unparseable header
leaves the deadline at 0, i.e. already elapsed. -/
theorem c1_deadline_clamp (now t : Int) (bytes bad : List Nat)
    (s sBad : String)
    (hs : headerValueToStr bytes = some s) (ht : parse_i64 s = some t)
    (hs2 : headerValueToStr bad = some sBad) (ht2 : parse_i64 sBad = none)
    (hnow : 0 ≤ now) :
    compute_time_out now (some bytes)
        = some (now + min (max 10000 t) 120000 - 500)
    ∧ (t ≤ 10000 →
        compute_time_out now (some bytes) = some (now + 10000 - 500))
    ∧ (120000 ≤ t →
        compute_time_out now (some bytes) = some (now + 120000 - 500))
    ∧ (10000 ≤ t → t ≤ 120000 →
        compute_time_out now (some bytes) = some (now + t - 500))
    ∧ compute_time_out now none = some 0
    ∧ compute_time_out now (some bad) = some 0
    ∧ (∀ d, compute_time_out now none = some d → d ≤ now)
    ∧ (∀ d, compute_time_out now (some bad) = some d → d ≤ now) := by
  have hmain : compute_time_out now (some bytes)
      = some (now + min (max 10000 t) 120000 - 500) := by
    simp only [compute_time_out, hs, ht]
  have hbad : compute_time_out now (some bad) = some 0 := by
    simp only [compute_time_out, hs2, ht2]
  refine ⟨hmain, ?_, ?_, ?_, rfl, hbad, ?_, ?_⟩
  · intro h1
    rw [hmain]
    congr 1
    omega
  · intro h1
    rw [hmain]
    congr 1
    omega
  · intro h1 h2
    rw [hmain]
    congr 1
    omega
  · intro d hd
    simp only [compute_time_out, Option.some.injEq] at hd
    omega
  · intro d hd
    rw [hbad] at hd
    simp only [Option.some.injEq] at hd
    omega

theorem c1_witness :
    compute_time_out 1000 (some [53, 48, 48, 48])
        = some (1000 + min (max 10000 5000) 120000 - 500)
    ∧ compute_time_out 1000 none = some 0 :=
  ⟨(c1_deadline_clamp 1000 5000 [53, 48, 48, 48] [120] "5000" "x"
      (by decide) (by decide) (by decide) (by decide) (by decide)).1,
   (c1_deadline_clamp 1000 5000 [53, 48, 48, 48] [120] "5000" "x"
      (by decide) (by decide) (by decide) (by decide)
      (by decide)).2.2.2.2.1⟩

/-- C2: a `POST /configs/listener` request whose decoded watch-item list is
empty (in particular an absent or empty `Listening-Configs` field) returns
204 with the designated body and never sends a `LISTENER` command. -/
theorem c2_empty_watch_rejected (a b : ListenerParams) (now : Int)
    (header : Option (List Nat))
    (h : (a.select_option b).to_items = []) :
    listener_config a b now header
      = some (.earlyReturn (noContentHtml "error:listener empty"))
    ∧ (∀ q : ListenerParams,
        q = ⟨none⟩ ∨ q = ⟨some ""⟩ →
        listener_config q ⟨none⟩ now header
          = some (.earlyReturn (noContentHtml "error:listener empty"))) := by
  constructor
  · unfold listener_config
    rw [h]
    rfl
  · rintro q (rfl | rfl)
    · unfold listener_config
      rw [show ((⟨none⟩ : ListenerParams).select_option ⟨none⟩).to_items = []
        from by decide]
      rfl
    · unfold listener_config
      rw [show ((⟨some ""⟩ : ListenerParams).select_option ⟨none⟩).to_items = []
        from by decide]
      rfl

theorem c2_witness :
    listener_config ⟨some ""⟩ ⟨none⟩ 0 none
      = some (.earlyReturn (noContentHtml "error:listener empty")) :=
  (c2_empty_watch_rejected ⟨some ""⟩ ⟨none⟩ 0 none (by decide)).1

/-- C5: a tenant of `"public"`, an empty tenant and an absent tenant all
confirm to the same parameters — the confirmed tenant (hence the
`ConfigKey`) is the empty string in all three cases. -/
theorem c5_tenant_normalization (d g c : Option String) :
    ConfigWebParams.to_confirmed_param ⟨d, g, some "public", c⟩
      = ConfigWebParams.to_confirmed_param ⟨d, g, none, c⟩
    ∧ ConfigWebParams.to_confirmed_param ⟨d, g, some "", c⟩
      = ConfigWebParams.to_confirmed_param ⟨d, g, none, c⟩
    ∧ (∀ p, ConfigWebParams.to_confirmed_param ⟨d, g, none, c⟩ = .ok p →
        p.tenant = "") := by
  refine ⟨?_, ?_, ?_⟩
  · cases d with
    | none => rfl
    | some v =>
        simp only [ConfigWebParams.to_confirmed_param]
        by_cases hv : v.isEmpty
        · rw [if_pos hv, if_pos hv]
        · rw [if_neg hv, if_neg hv]
          rfl
  · cases d with
    | none => rfl
    | some v =>
        simp only [ConfigWebParams.to_confirmed_param]
        by_cases hv : v.isEmpty
        · rw [if_pos hv, if_pos hv]
        · rw [if_neg hv, if_neg hv]
          rfl
  · intro p hp
    cases d with
    | none =>
        have h2 : Except.ok (ε := String)
            (ConfigWebParams.confirmRest ⟨none, g, none, c⟩ "") = .ok p := hp
        injection h2 with h3
        rw [← h3]
        rfl
    | some v =>
        simp only [ConfigWebParams.to_confirmed_param] at hp
        by_cases hv : v.isEmpty
        · rw [if_pos hv] at hp
          exact Except.noConfusion hp
        · rw [if_neg hv] at hp
          injection hp with h3
          rw [← h3]
          rfl

theorem c5_witness :
    ConfigWebParams.to_confirmed_param ⟨some "a", none, some "public", none⟩
      = ConfigWebParams.to_confirmed_param ⟨some "a", none, none, none⟩
    ∧ (⟨"a", "DEFAULT_GROUP", "", ""⟩ : ConfigWebConfirmedParam).tenant
        = "" :=
  ⟨(c5_tenant_normalization (some "a") none none).1,
   (c5_tenant_normalization (some "a") none none).2.2
     ⟨"a", "DEFAULT_GROUP", "", ""⟩ (by rfl)⟩

/-- C9 (code bug): `listener_config` converts the `Long-Pulling-Timeout`
header with `to_str().unwrap()`; a header value with a non-visible-ASCII
byte (here `0xFF`) makes `to_str` fail and the `unwrap` panic (modelled as
`none`), so the deadline computation is not total — contradicting the
spec's rule that no request input is fatal.  The accompanying non-empty
watch list shows the request reaches the header code. -/
theorem c9_nonascii_header_panics :
    decode_listener_items "a\x02g\x02m" ≠ []
    ∧ headerValueToStr [255] = none
    ∧ compute_time_out 0 (some [255]) = none
    ∧ listener_config ⟨some "a\x02g\x02m"⟩ ⟨none⟩ 0 (some [255]) = none := by
  decide

/-- C10: an absent `dataId` confirms to the empty string (only a present and
empty `dataId` errors), and `get_config` — which performs no `check_param` /
`check_tenant` validation — then queries the store for a key with empty
`data_id` instead of rejecting the request. -/
theorem c10_absent_data_id_queries_store (g t c : Option String)
    (store : ConfigKey → Option ConfigEntry) :
    (∃ p, ConfigWebParams.to_confirmed_param ⟨none, g, t, c⟩ = .ok p
        ∧ p.data_id = "")
    ∧ ConfigWebParams.to_confirmed_param ⟨some "", g, t, c⟩
        = .error "dataId is empty"
    ∧ (∃ k, (get_config ⟨none, g, t, c⟩ store).2 = some k
        ∧ k.data_id = "") := by
  refine ⟨⟨_, rfl, rfl⟩, rfl, ?_⟩
  rw [get_config_eq ⟨none, g, t, c⟩
    (ConfigWebParams.confirmRest ⟨none, g, t, c⟩ "") store rfl]
  cases store ⟨(ConfigWebParams.confirmRest ⟨none, g, t, c⟩ "").data_id,
      (ConfigWebParams.confirmRest ⟨none, g, t, c⟩ "").group,
      (ConfigWebParams.confirmRest ⟨none, g, t, c⟩ "").tenant⟩ with
  | some e => exact ⟨_, rfl, rfl⟩
  | none => exact ⟨_, rfl, rfl⟩

/-- C4 counterexample: a publish request with an empty `dataId` is rejected
with HTTP 500 (`InternalServerError`), which is not a client-error (4xx)
status, so the claim's "client-error response" does not hold as stated; the
store route is untouched. -/
theorem c4_counterexample :
    (add_config ⟨some "", none, none, some "c"⟩ ⟨none, none, none, none⟩
        (fun _ => .ok ())).1.status = 500
    ∧ ¬ isClientError
        (add_config ⟨some "", none, none, some "c"⟩ ⟨none, none, none, none⟩
          (fun _ => .ok ())).1.status
    ∧ (add_config ⟨some "", none, none, some "c"⟩ ⟨none, none, none, none⟩
        (fun _ => .ok ())).2 = none := by
  refine ⟨rfl, by decide, rfl⟩

/-- C4 (amended): for every publish or delete request whose parameters fail
validation, the handler returns an HTTP 500 `InternalServerError` response
— not a 4xx client-error — carrying the validation message, and the request
is rejected at the boundary: the store route is never invoked. -/
theorem c4_validation_rejected (a b : ConfigWebParams)
    (routeS : SetConfigReq → Except String Unit)
    (routeD : DelConfigReq → Except String Unit) (e : String) :
    (check_tenant (a.select_option b).tenant = .error e →
        add_config a b routeS = (internalServerError e, none)
        ∧ del_config a b routeD = (internalServerError e, none))
    ∧ (check_param (a.select_option b).data_id (a.select_option b).group
          (some "datumId") (a.select_option b).content = .error e →
        ∀ u, check_tenant (a.select_option b).tenant = .ok u →
        add_config a b routeS = (internalServerError e, none))
    ∧ (check_param (a.select_option b).data_id (a.select_option b).group
          (some "datumId") (some "rm") = .error e →
        ∀ u, check_tenant (a.select_option b).tenant = .ok u →
        del_config a b routeD = (internalServerError e, none)) := by
  refine ⟨?_, ?_, ?_⟩
  · intro h1
    constructor
    · simp only [add_config, h1]
    · simp only [del_config, h1]
  · intro h1 u h2
    simp only [add_config, h2, h1]
  · intro h1 u h2
    simp only [del_config, h2, h1]

theorem c4_witness :
    add_config ⟨some "a", none, some "!", none⟩ ⟨none, none, none, none⟩
        (fun _ => .ok ()) = (internalServerError "invalid tenant", none)
    ∧ del_config ⟨some "a", none, some "!", none⟩ ⟨none, none, none, none⟩
        (fun _ => .ok ()) = (internalServerError "invalid tenant", none) :=
  (c4_validation_rejected ⟨some "a", none, some "!", none⟩
      ⟨none, none, none, none⟩ (fun _ => .ok ()) (fun _ => .ok ())
      "invalid tenant").1 (by rfl)

/-- C6: a `GET /configs` request naming a key with a live entry yields 200
with the raw content as body, a `content-md5` header equal to the entry's
fingerprint, and a content type derived from `config_type` (defaulting to
plain text when absent); a key with no live entry yields 404. -/
theorem c6_get_config_response (a : ConfigWebParams)
    (p : ConfigWebConfirmedParam) (store : ConfigKey → Option ConfigEntry)
    (e : ConfigEntry) (hp : a.to_confirmed_param = .ok p) :
    (store ⟨p.data_id, p.group, p.tenant⟩ = some e →
        get_config a store
          = (⟨200,
              some (((e.config_type.map ConfigType.new_by_value).getD
                default).get_media_type),
              [("content-md5", e.md5)], e.content⟩,
             some ⟨p.data_id, p.group, p.tenant⟩))
    ∧ (store ⟨p.data_id, p.group, p.tenant⟩ = none →
        get_config a store
          = (notFoundResponse "config data not exist",
             some ⟨p.data_id, p.group, p.tenant⟩))
    ∧ (Option.map ConfigType.new_by_value none).getD default
        = ConfigType.text := by
  refine ⟨?_, ?_, rfl⟩ <;> intro h <;> rw [get_config_eq a p store hp, h]

theorem c6_witness :
    get_config ⟨some "a", none, none, none⟩
        (fun k => if k = ⟨"a", "DEFAULT_GROUP", ""⟩
          then some ⟨"v1", "md5v1", none⟩ else none)
      = (⟨200,
          some ((((none : Option String).map ConfigType.new_by_value).getD
            default).get_media_type),
          [("content-md5", "md5v1")], "v1"⟩,
         some ⟨"a", "DEFAULT_GROUP", ""⟩)
    ∧ get_config ⟨some "a", none, none, none⟩ (fun _ => none)
      = (notFoundResponse "config data not exist",
         some ⟨"a", "DEFAULT_GROUP", ""⟩) :=
  ⟨(c6_get_config_response ⟨some "a", none, none, none⟩
      ⟨"a", "DEFAULT_GROUP", "", ""⟩
      (fun k => if k = ⟨"a", "DEFAULT_GROUP", ""⟩
        then some ⟨"v1", "md5v1", none⟩ else none)
      ⟨"v1", "md5v1", none⟩ (by rfl)).1 (by rfl),
   (c6_get_config_response ⟨some "a", none, none, none⟩
      ⟨"a", "DEFAULT_GROUP", "", ""⟩ (fun _ => none)
      ⟨"v1", "md5v1", none⟩ (by rfl)).2.1 rfl⟩

/-- Percent-encoding is a byte-wise map, so it distributes over string
concatenation. -/
theorem formUrlencode_append (a b : String) :
    formUrlencode (a ++ b) = formUrlencode a ++ formUrlencode b := by
  apply String.ext
  have h1 : (formUrlencode (a ++ b)).data
      = ((a.data ++ b.data).flatMap utf8Bytes).flatMap formUrlencodeByte := by
    show ((a ++ b).data.flatMap utf8Bytes).flatMap formUrlencodeByte = _
    rw [String.data_append]
  have h2 : (formUrlencode a ++ formUrlencode b).data
      = (a.data.flatMap utf8Bytes).flatMap formUrlencodeByte
        ++ (b.data.flatMap utf8Bytes).flatMap formUrlencodeByte := by
    rw [String.data_append]
    rfl
  rw [h1, h2, List.flatMap_append, List.flatMap_append]

/-- The `accumulator ++ build_key ++ "\x01"` fold of `listener_config`
builds the raw claimed blob after the accumulator. -/
theorem foldl_build_eq (list : List ConfigKey) :
    ∀ acc : String,
      list.foldl (fun acc item => acc ++ item.build_key ++ "\x01") acc
        = acc ++ claimedBlob list := by
  induction list with
  | nil =>
      intro acc
      show acc = acc ++ ""
      apply String.ext
      rw [String.data_append]
      rw [show ("" : String).data = [] from rfl, List.append_nil]
  | cons k ks ih =>
      intro acc
      show List.foldl _ (acc ++ k.build_key ++ "\x01") ks
        = acc ++ (k.build_key ++ "\x01" ++ claimedBlob ks)
      rw [ih (acc ++ k.build_key ++ "\x01"), String.append_assoc,
        String.append_assoc, String.append_assoc]

/-- Slicing the two-byte `"_="` prefix off the one-field `serde_urlencoded`
output leaves exactly the percent-encoded value. -/
theorem dropTwo_urlencoded (v : String) :
    strDropBytes (serdeUrlencodedToString [("_", v)]) 2 = formUrlencode v := by
  apply String.ext
  have h1 : serdeUrlencodedToString [("_", v)]
      = formUrlencode "_" ++ "=" ++ formUrlencode v := rfl
  show (serdeUrlencodedToString [("_", v)]).data.drop 2 = (formUrlencode v).data
  rw [h1, String.data_append, String.data_append]
  rfl

/-- C3 (amended): the changed-key response body is the
`application/x-www-form-urlencoded` percent-encoding of the claimed blob
(each key rendered `data_id \x02 group [\x02 tenant]`, suffixed `\x01`,
concatenated — so the separators appear as `%02` / `%01` in the body bytes),
terminated by a newline; fingerprints are not included. -/
theorem c3_body_is_urlencoded_blob (list : List ConfigKey) :
    listener_data_body list = formUrlencode (claimedBlob list) ++ "\n"
    ∧ listener_render (.DATA list)
        = okHtml (formUrlencode (claimedBlob list) ++ "\n") := by
  have hbody : listener_data_body list
      = formUrlencode (claimedBlob list) ++ "\n" := by
    unfold listener_data_body
    rw [foldl_build_eq list ""]
    have h0 : ("" : String) ++ claimedBlob list = claimedBlob list := by
      apply String.ext
      rw [String.data_append]
      rfl
    rw [h0]
    show strDropBytes (serdeUrlencodedToString [("_", claimedBlob list)]) 2
        ++ "\n" = _
    rw [dropTwo_urlencoded]
  exact ⟨hbody, by rw [listener_render, hbody]⟩

/-- C3 counterexample: for the single changed key `("a", "g", "")` the code
produces the percent-encoded body `"a%02g%01\n"`, not the raw-byte body
`"a\x02g\x01\n"` the claim describes. -/
theorem c3_counterexample :
    listener_data_body [⟨"a", "g", ""⟩] = "a%02g%01\n"
    ∧ claimedListenerBody [⟨"a", "g", ""⟩] = "a\x02g\x01\n"
    ∧ listener_data_body [⟨"a", "g", ""⟩]
        ≠ claimedListenerBody [⟨"a", "g", ""⟩] := by
  decide

/-- `registryRun` peels one command. -/
theorem registryRun_cons (hash : String → String) (st : RegistryState)
    (c : RegistryCmd) (cs : List RegistryCmd) :
    registryRun hash st (c :: cs)
      = registryRun hash (registryStep hash st c) cs := rfl

/-- A `register` whose items all still match is stored as pending. -/
theorem register_step_pending (hash : String → String) (st : RegistryState)
    (w : PendingWatch) (h : (changedKeys st.store w.items).isEmpty = true) :
    registryStep hash st (.register w)
      = { st with pending := st.pending ++ [w] } := by
  simp [registryStep, h]

/-- A `register` with an already-changed item resolves immediately with the
changed keys. -/
theorem register_step_resolve (hash : String → String) (st : RegistryState)
    (w : PendingWatch)
    (h : ¬(changedKeys st.store w.items).isEmpty = true) :
    registryStep hash st (.register w)
      = { st with resolved := st.resolved
          ++ [(w.id, .DATA (changedKeys st.store w.items))] } := by
  simp [registryStep, h]

/-- Splitting a list by a predicate and mapping preserves the multiset of
images. -/
theorem filter_split_map_perm {α β : Type} (p : α → Bool) (l : List α)
    (f : α → β) :
    List.Perm ((l.filter (fun x => !p x)).map f ++ (l.filter p).map f)
      (l.map f) := by
  rw [← List.map_append]
  exact (List.Perm.trans List.perm_append_comm
    (List.filter_append_perm p l)).map f

/-- In `A ++ [x] ++ B`, the singleton can move to the back. -/
theorem perm_append_singleton_mid {α : Type} (A B : List α) (x : α) :
    List.Perm ((A ++ [x]) ++ B) ((A ++ B) ++ [x]) := by
  rw [List.append_assoc, List.append_assoc]
  exact List.Perm.append_left A List.perm_append_comm

/-- Moving a middle block to the back of an append preserves permutation
with a recombined front. -/
theorem perm_shuffle {α : Type} (K H P R : List α)
    (h : List.Perm (K ++ H) P) :
    List.Perm (K ++ (R ++ H)) (P ++ R) := by
  have h1 : List.Perm (K ++ (R ++ H)) (K ++ (H ++ R)) :=
    List.Perm.append_left K List.perm_append_comm
  have h2 : List.Perm (K ++ (H ++ R)) ((K ++ H) ++ R) := by
    rw [List.append_assoc]
  exact (h1.trans h2).trans (List.Perm.append_right R h)

/-- One step permutes the known watch ids, adding exactly the newly
registered ones: ids are never dropped, only moved from pending to
resolved. -/
theorem step_ids_perm (hash : String → String) (st : RegistryState)
    (c : RegistryCmd) :
    List.Perm (registryStep hash st c).ids (st.ids ++ cmdRegisterIds c) := by
  cases c with
  | register w =>
      by_cases h : (changedKeys st.store w.items).isEmpty = true
      · rw [register_step_pending hash st w h]
        show List.Perm
          ((st.pending ++ [w]).map (·.id) ++ st.resolved.map (·.1))
          ((st.pending.map (·.id) ++ st.resolved.map (·.1)) ++ [w.id])
        rw [List.map_append]
        exact perm_append_singleton_mid _ _ _
      · rw [register_step_resolve hash st w h]
        show List.Perm
          (st.pending.map (·.id)
            ++ (st.resolved
              ++ [(w.id, ListenerResult.DATA (changedKeys st.store w.items))]).map
                (fun x : Nat × ListenerResult => x.1))
          ((st.pending.map (·.id) ++ st.resolved.map (·.1)) ++ [w.id])
        rw [List.map_append, ← List.append_assoc]
        exact List.Perm.refl _
  | set k content ct =>
      show List.Perm
        ((st.pending.filter (fun w => !w.items.any (fun it => it.key = k))).map (·.id)
          ++ (st.resolved ++ (st.pending.filter
              (fun w => w.items.any (fun it => it.key = k))).map (fun w =>
            (w.id, ListenerResult.DATA ((w.items.filter (fun it =>
              it.key = k || storeMd5 (storeSet hash st.store k content ct)
                it.key ≠ it.md5)).map (·.key))))).map (·.1))
        ((st.pending.map (·.id) ++ st.resolved.map (·.1)) ++ [])
      rw [List.map_append, List.append_nil]
      have hmm : List.map (fun x : Nat × ListenerResult => x.1)
          ((st.pending.filter
            (fun w => w.items.any (fun it => it.key = k))).map (fun w =>
              (w.id, ListenerResult.DATA ((w.items.filter (fun it =>
                it.key = k || storeMd5 (storeSet hash st.store k content ct)
                  it.key ≠ it.md5)).map (·.key)))))
          = (st.pending.filter
            (fun w => w.items.any (fun it => it.key = k))).map (·.id) := by
        rw [List.map_map]
        rfl
      rw [hmm]
      exact perm_shuffle _ _ _ _ (filter_split_map_perm _ _ _)
  | onDeadline now =>
      show List.Perm
        ((st.pending.filter (fun w => !(w.deadline ≤ now))).map (·.id)
          ++ (st.resolved ++ (st.pending.filter
              (fun w => w.deadline ≤ now)).map (fun w =>
            (w.id, ListenerResult.NULL))).map (·.1))
        ((st.pending.map (·.id) ++ st.resolved.map (·.1)) ++ [])
      rw [List.map_append, List.append_nil]
      have hmm : List.map (fun x : Nat × ListenerResult => x.1)
          ((st.pending.filter (fun w => w.deadline ≤ now)).map (fun w =>
            (w.id, ListenerResult.NULL)))
          = (st.pending.filter (fun w => w.deadline ≤ now)).map (·.id) := by
        rw [List.map_map]
        rfl
      rw [hmm]
      exact perm_shuffle _ _ _ _ (filter_split_map_perm _ _ _)

/-- Over a whole run, the final pending-plus-resolved ids are a permutation
of the initial ids plus every registered id. -/
theorem run_ids_perm (hash : String → String) (cmds : List RegistryCmd) :
    ∀ st : RegistryState,
      List.Perm (registryRun hash st cmds).ids (st.ids ++ registerIds cmds) := by
  induction cmds with
  | nil =>
      intro st
      rw [show registryRun hash st [] = st from rfl]
      rw [show registerIds [] = [] from rfl, List.append_nil]
  | cons c cs ih =>
      intro st
      rw [registryRun_cons]
      have h3 := List.Perm.trans (ih (registryStep hash st c))
        (List.Perm.append_right (registerIds cs) (step_ids_perm hash st c))
      rw [List.append_assoc] at h3
      have h4 : cmdRegisterIds c ++ registerIds cs = registerIds (c :: cs) := by
        cases c <;> rfl
      rw [h4] at h3
      exact h3

/-- One step only appends well-formed completions: a non-empty changed list
(immediate or mutation-triggered resolution) or the no-change marker
(deadline). -/
theorem step_resolved_wf (hash : String → String) (st : RegistryState)
    (c : RegistryCmd) (h : ∀ r ∈ st.resolved, resolutionWF r) :
    ∀ r ∈ (registryStep hash st c).resolved, resolutionWF r := by
  cases c with
  | register w =>
      by_cases hch : (changedKeys st.store w.items).isEmpty = true
      · rw [register_step_pending hash st w hch]
        exact h
      · rw [register_step_resolve hash st w hch]
        intro r hr
        rcases List.mem_append.mp hr with hr | hr
        · exact h r hr
        · rcases List.mem_singleton.mp hr with rfl
          left
          exact ⟨changedKeys st.store w.items, rfl,
            fun hnil => hch (by rw [hnil]; rfl)⟩
  | set k content ct =>
      intro r hr
      rcases List.mem_append.mp hr with hr | hr
      · exact h r hr
      · rcases List.mem_map.mp hr with ⟨w, hw, rfl⟩
        left
        refine ⟨_, rfl, ?_⟩
        have hany := (List.mem_filter.mp hw).2
        rcases List.any_eq_true.mp hany with ⟨it, hit, hkey⟩
        apply List.ne_nil_of_mem
        refine List.mem_map_of_mem _ (List.mem_filter.mpr ⟨hit, ?_⟩)
        rw [Bool.or_eq_true]
        left
        exact hkey
  | onDeadline now =>
      intro r hr
      rcases List.mem_append.mp hr with hr | hr
      · exact h r hr
      · rcases List.mem_map.mp hr with ⟨w, hw, rfl⟩
        right
        rfl

/-- Every completion a run delivers is well-formed, provided the initial
log's completions are. -/
theorem run_resolved_wf (hash : String → String) (cmds : List RegistryCmd) :
    ∀ st : RegistryState, (∀ r ∈ st.resolved, resolutionWF r) →
      ∀ r ∈ (registryRun hash st cmds).resolved, resolutionWF r := by
  induction cmds with
  | nil => intro st h; exact h
  | cons c cs ih =>
      intro st h
      rw [registryRun_cons]
      exact ih (registryStep hash st c) (step_resolved_wf hash st c h)

/-- C7: whatever serialized command sequence runs, every watch's single-use
completion slot receives at most one completion (the delivered-completion
ids stay duplicate-free when watch ids are fresh), every delivered
completion is a non-empty changed-key list or the no-change marker, and
once no watch is left pending every registered watch has been completed —
so each watch is completed exactly once, by match or by deadline. -/
theorem c7_exactly_once (hash : String → String)
    (s0 : List (ConfigKey × ConfigEntry)) (cmds : List RegistryCmd)
    (hids : (registerIds cmds).Nodup) :
    ((registryRun hash (RegistryState.init s0) cmds).resolved.map (·.1)).Nodup
    ∧ (∀ r ∈ (registryRun hash (RegistryState.init s0) cmds).resolved,
        resolutionWF r)
    ∧ ((registryRun hash (RegistryState.init s0) cmds).pending = [] →
        ∀ i ∈ registerIds cmds,
          i ∈ (registryRun hash (RegistryState.init s0) cmds).resolved.map
            (·.1)) := by
  have hperm := run_ids_perm hash cmds (RegistryState.init s0)
  rw [show (RegistryState.init s0).ids = [] from rfl, List.nil_append] at hperm
  have hnodup : (registryRun hash (RegistryState.init s0) cmds).ids.Nodup :=
    hperm.nodup_iff.mpr hids
  have hidsdef : (registryRun hash (RegistryState.init s0) cmds).ids
      = (registryRun hash (RegistryState.init s0) cmds).pending.map (·.id)
        ++ (registryRun hash (RegistryState.init s0) cmds).resolved.map
          (·.1) := rfl
  refine ⟨?_, ?_, ?_⟩
  · rw [hidsdef] at hnodup
    exact hnodup.of_append_right
  · exact run_resolved_wf hash cmds (RegistryState.init s0)
      (fun r hr => absurd hr (List.not_mem_nil r))
  · intro hpend i hi
    have hmem : i ∈ (registryRun hash (RegistryState.init s0) cmds).ids :=
      hperm.mem_iff.mpr hi
    rw [hidsdef, hpend] at hmem
    simpa using hmem

theorem c7_witness :
    (1 : Nat) ∈ ((registryRun (fun s => s) (RegistryState.init [])
      [.register ⟨1, [⟨⟨"a", "g", ""⟩, "m"⟩], 100⟩,
       .onDeadline 200]).resolved.map (·.1)) :=
  (c7_exactly_once (fun s => s) []
    [.register ⟨1, [⟨⟨"a", "g", ""⟩, "m"⟩], 100⟩, .onDeadline 200]
    (by decide)).2.2 (by decide) 1 (by decide)

/-- The registration-time change check on a single-item watch. -/
theorem changedKeys_singleton (store : List (ConfigKey × ConfigEntry))
    (k : ConfigKey) (m : String) :
    changedKeys store [⟨k, m⟩] = if storeMd5 store k = m then [] else [k] := by
  by_cases h : storeMd5 store k = m
  · rw [if_pos h]
    simp [changedKeys, h]
  · rw [if_neg h]
    simp [changedKeys, h]

/-- After `set`, the stored fingerprint of the written key is the hash of
the new content. -/
theorem storeMd5_set_self (hash : String → String)
    (store : List (ConfigKey × ConfigEntry)) (k : ConfigKey)
    (content : String) (ct : Option String) :
    storeMd5 (storeSet hash store k content ct) k = hash content := by
  simp [storeMd5, storeSet, List.lookup]

/-- C8: a watch on key `k` whose known fingerprint is stale with respect to
`set(k, content)` resolves with `k` in its changed-key list and never with
the no-change result, under both serialized interleavings of the
registration and the mutation (§5 reduces concurrency to these two
orders). -/
theorem c8_no_miss (hash : String → String)
    (s0 : List (ConfigKey × ConfigEntry)) (k : ConfigKey) (m content : String)
    (ct : Option String) (idw : Nat) (dl : Int)
    (hstale : m ≠ hash content) :
    (∃ keys, (idw, ListenerResult.DATA keys)
        ∈ (registryRun hash (RegistryState.init s0)
            [.register ⟨idw, [⟨k, m⟩], dl⟩, .set k content ct]).resolved
      ∧ k ∈ keys)
    ∧ ((idw, ListenerResult.NULL)
        ∉ (registryRun hash (RegistryState.init s0)
            [.register ⟨idw, [⟨k, m⟩], dl⟩, .set k content ct]).resolved)
    ∧ (∃ keys, (idw, ListenerResult.DATA keys)
        ∈ (registryRun hash (RegistryState.init s0)
            [.set k content ct, .register ⟨idw, [⟨k, m⟩], dl⟩]).resolved
      ∧ k ∈ keys)
    ∧ ((idw, ListenerResult.NULL)
        ∉ (registryRun hash (RegistryState.init s0)
            [.set k content ct, .register ⟨idw, [⟨k, m⟩], dl⟩]).resolved) := by
  have hch2 : changedKeys (storeSet hash s0 k content ct)
      [(⟨k, m⟩ : ListenerItem)] = [k] := by
    rw [changedKeys_singleton, storeMd5_set_self]
    rw [if_neg (fun hh => hstale hh.symm)]
  have hst1 : registryStep hash (RegistryState.init s0) (.set k content ct)
      = ⟨storeSet hash s0 k content ct, [], []⟩ := rfl
  have hne2 : ¬(changedKeys (storeSet hash s0 k content ct)
      [(⟨k, m⟩ : ListenerItem)]).isEmpty = true := by
    rw [hch2]
    simp
  have horder2 : (registryRun hash (RegistryState.init s0)
      [.set k content ct, .register ⟨idw, [⟨k, m⟩], dl⟩]).resolved
      = [(idw, ListenerResult.DATA [k])] := by
    rw [show registryRun hash (RegistryState.init s0)
        [.set k content ct, .register ⟨idw, [⟨k, m⟩], dl⟩]
      = registryStep hash ⟨storeSet hash s0 k content ct, [], []⟩
          (.register ⟨idw, [⟨k, m⟩], dl⟩) from by
        rw [registryRun_cons, hst1]
        rfl]
    rw [register_step_resolve hash ⟨storeSet hash s0 k content ct, [], []⟩
      ⟨idw, [⟨k, m⟩], dl⟩ hne2]
    simp [hch2]
  have horder1 : (registryRun hash (RegistryState.init s0)
      [.register ⟨idw, [⟨k, m⟩], dl⟩, .set k content ct]).resolved
      = [(idw, ListenerResult.DATA [k])] := by
    have hrun : registryRun hash (RegistryState.init s0)
        [.register ⟨idw, [⟨k, m⟩], dl⟩, .set k content ct]
        = registryStep hash
            (registryStep hash (RegistryState.init s0)
              (.register ⟨idw, [⟨k, m⟩], dl⟩))
            (.set k content ct) := rfl
    rw [hrun]
    by_cases hm : storeMd5 s0 k = m
    · have hch1 : changedKeys s0 [(⟨k, m⟩ : ListenerItem)] = [] := by
        rw [changedKeys_singleton, if_pos hm]
      have hemp1 : (changedKeys s0 [(⟨k, m⟩ : ListenerItem)]).isEmpty
          = true := by
        rw [hch1]
        rfl
      have hpend : registryStep hash (RegistryState.init s0)
          (.register ⟨idw, [⟨k, m⟩], dl⟩)
          = ⟨s0, [⟨idw, [⟨k, m⟩], dl⟩], []⟩ := by
        rw [register_step_pending hash (RegistryState.init s0)
          ⟨idw, [⟨k, m⟩], dl⟩ hemp1]
        rfl
      rw [hpend]
      have hkk : (decide (k = k)) = true := decide_eq_true rfl
      simp [registryStep, hkk]
    · have hch1 : changedKeys s0 [(⟨k, m⟩ : ListenerItem)] = [k] := by
        rw [changedKeys_singleton, if_neg hm]
      have hne1 : ¬(changedKeys s0 [(⟨k, m⟩ : ListenerItem)]).isEmpty
          = true := by
        rw [hch1]
        simp
      have hreg : registryStep hash (RegistryState.init s0)
          (.register ⟨idw, [⟨k, m⟩], dl⟩)
          = ⟨s0, [], [(idw, ListenerResult.DATA [k])]⟩ := by
        rw [register_step_resolve hash (RegistryState.init s0)
          ⟨idw, [⟨k, m⟩], dl⟩ hne1]
        simp [RegistryState.init, hch1]
      rw [hreg]
      rfl
  refine ⟨?_, ?_, ?_, ?_⟩
  · rw [horder1]
    exact ⟨[k], List.mem_singleton.mpr rfl, List.mem_singleton.mpr rfl⟩
  · rw [horder1]
    simp
  · rw [horder2]
    exact ⟨[k], List.mem_singleton.mpr rfl, List.mem_singleton.mpr rfl⟩
  · rw [horder2]
    simp

theorem c8_witness :
    ∃ keys, ((1 : Nat), ListenerResult.DATA keys)
        ∈ (registryRun (fun s => s) (RegistryState.init [])
            [.register ⟨1, [⟨⟨"a", "g", ""⟩, "old"⟩], 100⟩,
             .set ⟨"a", "g", ""⟩ "new" none]).resolved
      ∧ (⟨"a", "g", ""⟩ : ConfigKey) ∈ keys :=
  (c8_no_miss (fun s => s) [] ⟨"a", "g", ""⟩ "old" "new" none 1 100
    (by decide)).1
